import Mathlib

/-!
Shallow embedding of the `pff` repository's two source files:

* the candidate-list widget (`CandidateList`), whose `calculateRating`
  derives an average rating string from a candidate's nested feedback
  structure, and

* the admin user-management page (`UserManagement`), whose
  `fetchUsers`, `filterAndSortUsers`, `exportUsersToCSV`,
  `getStatusText` and `deleteUser` implement aggregation, client-side
  filtering and sorting, CSV export, status derivation and a cascading
  delete.

JavaScript strings are modelled by `String` (comparisons on `Char`
scalar values stand in for UTF-16 code-unit comparisons), timestamps by
`Nat` instants, optional / possibly-`undefined` fields by `Option`, and
JSON values occurring in the rating mapping by the inductive `JsVal`.
`Array.prototype.sort` with the page's comparator is modelled by
insertion sort over the decidable relation `comparator a b ≤ 0`: the
comparator never returns 0, so any comparison sort yields a list whose
adjacent pairs satisfy exactly that relation.
-/

/-! ## Rating calculator (candidate-list widget) -/

/-- A JSON value that can appear as an entry of the nested
`conversation_transcript.feedback.rating` mapping. -/
inductive JsVal
  | num (q : ℚ)
  | str (s : String)
  | jbool (b : Bool)
  | null
deriving DecidableEq

/-- The `feedback` object: its `rating` member is an object (modelled as an
association list) or absent/null. -/
structure Feedback where
  rating : Option (List (String × JsVal))
deriving DecidableEq

/-- The `conversation_transcript` object with its optional `feedback` member. -/
structure Transcript where
  feedback : Option Feedback
deriving DecidableEq

/-- A candidate record as consumed by the `CandidateList` widget. -/
structure Candidate where
  fullname : Option String
  created_at : Option Nat
  conversation_transcript : Option Transcript
deriving DecidableEq

/-- The optional-chaining access
`candidate?.conversation_transcript?.feedback?.rating`: `none` whenever any
level is absent (this also covers the code's `if (!rating)` guard, since an
absent or null `rating` is falsy). -/
def ratingOf (c : Candidate) : Option (List (String × JsVal)) :=
  (c.conversation_transcript.bind Transcript.feedback).bind Feedback.rating

/-- The numeric-valued entries of the rating object:
`Object.values(rating).filter(val => typeof val === "number")`. -/
def numericValues (r : List (String × JsVal)) : List ℚ :=
  r.filterMap fun p =>
    match p.2 with
    | JsVal.num q => some q
    | _ => none

/-- The rounded integer mean the widget computes
(`Math.round(values.reduce((a, b) => a + b, 0) / values.length)`), or `none`
on the two early-return paths (`!rating`, `!values.length`).
JavaScript's `Math.round x` is `⌊x + 1/2⌋`, which is Mathlib's `round`. -/
def ratingAverage (c : Candidate) : Option ℤ :=
  match ratingOf c with
  | none => none
  | some r =>
    let values := numericValues r
    if values.length = 0 then none
    else some (round (values.sum / (values.length : ℚ)))

/-- The widget's `calculateRating`: the sentinel `"N/A"` on the early
returns, otherwise the template literal `` `${average}/10` ``. -/
def calculateRating (c : Candidate) : String :=
  match ratingAverage c with
  | none => "N/A"
  | some a => toString a ++ "/10"

/-! ## Admin page data model -/

/-- A row of the `users` collection as returned by the backend. `name`,
`email`, `created_at` and `credits` can be absent; `created_at` is a
timestamp modelled as a `Nat` instant. -/
structure UserRow where
  id : Nat
  name : Option String
  email : Option String
  created_at : Option Nat
  credits : Option Int
  banned : Bool
  interview_id : Option Nat
deriving DecidableEq

/-- An enriched user view: a `UserRow` plus the two derived counts attached
by `fetchUsers`. -/
structure EUser extends UserRow where
  interviewCount : Nat
  candidateCount : Nat
deriving DecidableEq

/-- The sort keys offered by the page's sort select. -/
inductive SortKey
  | created_at
  | name
  | email
  | interviewCount
deriving DecidableEq

/-- The sort direction toggled by the page. -/
inductive SortDir
  | asc
  | desc
deriving DecidableEq

/-- The page's query state: `searchTerm`, `sortBy`, `sortOrder`,
`showBanned`. -/
structure QueryState where
  searchTerm : String
  sortBy : SortKey
  sortOrder : SortDir
  showBanned : Bool
deriving DecidableEq

/-! ## Search filter -/

/-- Lower-casing of a JavaScript string (`toLowerCase`), character-wise. -/
def lowerStr (s : String) : List Char :=
  s.data.map Char.toLower

/-- Whether `sub` occurs at the start of `hay` (the step relation of
`String.prototype.includes`). -/
def leadsWith : List Char → List Char → Bool
  | [], _ => true
  | _ :: _, [] => false
  | c :: cs, d :: ds => c == d && leadsWith cs ds

/-- JavaScript's `hay.includes(needle)`: `needle` occurs contiguously
somewhere in `hay` (the empty needle always occurs). -/
def containsSeq (hay needle : List Char) : Bool :=
  match hay with
  | [] => needle.isEmpty
  | c :: t => leadsWith needle (c :: t) || containsSeq t needle

/-- The per-field search test
`field?.toLowerCase().includes(searchTerm.toLowerCase())`: an absent field
is falsy, hence non-matching. -/
def optIncludesCI (field : Option String) (term : String) : Bool :=
  match field with
  | none => false
  | some s => containsSeq (lowerStr s) (lowerStr term)

/-- The page's `matchesSearch` disjunction over name and email. -/
def matchesSearch (term : String) (u : EUser) : Bool :=
  optIncludesCI u.name term || optIncludesCI u.email term

/-- The whole filter predicate of `filterAndSortUsers`:
`matchesSearch && matchesBannedFilter` where
`matchesBannedFilter = showBanned || !user.banned`. -/
def userPasses (q : QueryState) (u : EUser) : Bool :=
  matchesSearch q.searchTerm u && (q.showBanned || !u.banned)

/-! ## Sort comparator -/

/-- The value `a[sortBy]` after the page's `new Date(...)` conversion for
`created_at`: a number, a string, or NaN/undefined (`vnan`) when the field
is absent. -/
inductive SortVal
  | vnum (n : Nat)
  | vstr (s : String)
  | vnan
deriving DecidableEq

/-- Key extraction for the comparator. A missing `created_at` yields an
invalid date (NaN under comparison); a missing name or email yields
`undefined`, which also compares like NaN. -/
def sortVal (k : SortKey) (u : EUser) : SortVal :=
  match k with
  | SortKey.created_at =>
    match u.created_at with
    | some t => SortVal.vnum t
    | none => SortVal.vnan
  | SortKey.name =>
    match u.name with
    | some s => SortVal.vstr s
    | none => SortVal.vnan
  | SortKey.email =>
    match u.email with
    | some s => SortVal.vstr s
    | none => SortVal.vnan
  | SortKey.interviewCount => SortVal.vnum u.interviewCount

/-- JavaScript's `<` on Array-of-code-units: lexicographic comparison of the
character scalar values. -/
def lexLt : List Char → List Char → Bool
  | [], [] => false
  | [], _ :: _ => true
  | _ :: _, [] => false
  | c :: cs, d :: ds =>
    if c.toNat < d.toNat then true
    else if d.toNat < c.toNat then false
    else lexLt cs ds

/-- JavaScript's `aValue > bValue` on the two sort values. Any comparison
involving NaN or `undefined` is false. The mixed number/string cases cannot
arise (both operands come from the same sort key) and are false as well. -/
def jsGt : SortVal → SortVal → Bool
  | SortVal.vnum a, SortVal.vnum b => decide (b < a)
  | SortVal.vstr a, SortVal.vstr b => lexLt b.data a.data
  | _, _ => false

/-- JavaScript's `aValue < bValue` on the two sort values. -/
def jsLt : SortVal → SortVal → Bool
  | SortVal.vnum a, SortVal.vnum b => decide (a < b)
  | SortVal.vstr a, SortVal.vstr b => lexLt a.data b.data
  | _, _ => false

/-- The page's sort comparator:
`asc` returns `aValue > bValue ? 1 : -1`; `desc` returns
`aValue < bValue ? 1 : -1`. It never returns 0. -/
def jsCompare (k : SortKey) (d : SortDir) (a b : EUser) : Int :=
  match d with
  | SortDir.asc => if jsGt (sortVal k a) (sortVal k b) then 1 else -1
  | SortDir.desc => if jsLt (sortVal k a) (sortVal k b) then 1 else -1

/-- The direction-less key comparator used to state the sort
postcondition: 1 when the first key is strictly greater, -1 when strictly
smaller, 0 on ties and on NaN/undefined-involving comparisons. -/
def keyCompare (k : SortKey) (a b : EUser) : Int :=
  if jsGt (sortVal k a) (sortVal k b) then 1
  else if jsLt (sortVal k a) (sortVal k b) then -1
  else 0

/-- The page's `filterAndSortUsers`: filter by search term and banned flag,
then sort with the page's comparator. `Array.prototype.sort` is modelled by
insertion sort over the relation `comparator a b ≤ 0` (a comparison sort
keeps `a` before `b` exactly when the comparator is non-positive). -/
def filterAndSortUsers (q : QueryState) (users : List EUser) : List EUser :=
  List.insertionSort (fun a b => jsCompare q.sortBy q.sortOrder a b ≤ 0)
    (users.filter (userPasses q))

/-! ## Status label, CSV export -/

/-- The page's `getStatusText` priority chain. The code's `if
(user.created_at)` truthiness test is presence of the timestamp. -/
def getStatusText (u : EUser) : String :=
  if u.banned then "Banned"
  else if u.interviewCount > 0 then "Active"
  else if u.created_at.isSome then "Registered"
  else "Inactive"

/-- JavaScript's `value || 'N/A'` on an optional string: absent or empty
(falsy) values are replaced by the `'N/A'` literal. -/
def orNA : Option String → String
  | none => "N/A"
  | some s => if s = "" then "N/A" else s

/-- JavaScript's `user.credits || 0`: an absent credit balance (and the
falsy balance 0) becomes 0. -/
def creditsOrZero : Option Int → Int
  | none => 0
  | some c => c

/-- JavaScript's `Array.prototype.join(sep)`. -/
def joinSep (sep : String) : List String → String
  | [] => ""
  | [x] => x
  | x :: y :: xs => x ++ sep ++ joinSep sep (y :: xs)

/-- The fixed CSV header row of `exportUsersToCSV`. -/
def csvHeader : List String :=
  ["Name", "Email", "Created Date", "Interviews Created",
   "Candidates Interviewed", "Credits", "Status"]

/-- One CSV data row of `exportUsersToCSV`. The `moment(...).format(...)`
date rendering is an external library call, abstracted as the parameter
`fmt`; numeric fields are stringified by `join` exactly as `toString`. -/
def csvRow (fmt : Option Nat → String) (u : EUser) : List String :=
  [orNA u.name, orNA u.email, fmt u.created_at,
   toString u.interviewCount, toString u.candidateCount,
   toString (creditsOrZero u.credits), getStatusText u]

/-- The page's `csvContent`: header row plus one row per visible user, each
row comma-joined and the rows newline-joined. No escaping anywhere. -/
def exportUsersToCSV (fmt : Option Nat → String) (visible : List EUser) : String :=
  joinSep "\n" ((csvHeader :: visible.map (csvRow fmt)).map (joinSep ","))

/-! ## Aggregation (fetchUsers) -/

/-- The shape of a backend count response as destructured by the page:
`{ count, error }`. The page reads only `count`. -/
structure CountResp where
  count : Option Nat
  error : Option String
deriving DecidableEq

/-- The observable outcome of a `fetchUsers` pass: the user list rendered
afterwards and whether the failure toast fired. -/
structure FetchResult where
  users : List EUser
  errorToast : Bool
deriving DecidableEq

/-- Enrichment of one user row inside `fetchUsers`'s `Promise.all` map:
`interviewCount: interviewCount || 0, candidateCount: candidateCount || 0`.
The `error` member of each count response is never read. -/
def enrichUser (ic cc : UserRow → CountResp) (u : UserRow) : EUser :=
  { toUserRow := u
    interviewCount := ((ic u).count).getD 0
    candidateCount := ((cc u).count).getD 0 }

/-- The page's `fetchUsers` as a state transition: `prev` is the previously
rendered list, `listResp` the initial `users` listing (the code throws on
its `error`, landing in the catch that toasts and leaves `users` alone),
and `ic`/`cc` the per-user count responses. The backend client resolves
failed count queries with an error field rather than rejecting, so they
never reach the catch. -/
def fetchUsers (prev : List EUser) (listResp : Except String (List UserRow))
    (ic cc : UserRow → CountResp) : FetchResult :=
  match listResp with
  | Except.error _ => { users := prev, errorToast := true }
  | Except.ok rows => { users := rows.map (enrichUser ic cc), errorToast := false }

/-! ## Cascading delete -/

/-- The three backend delete calls issued by `deleteUser`. -/
inductive DelOp
  | delInterviews
  | delResults
  | delUser
deriving DecidableEq

/-- The observable outcome of a `deleteUser` run: which delete calls were
issued, which dependent-step errors were only logged, and whether the
success toast (rather than the failure toast) fired. -/
structure DeleteOutcome where
  ops : List DelOp
  loggedErrors : List String
  success : Bool
deriving DecidableEq

/-- The page's `deleteUser` given the error results of the three delete
calls. The interview-delete and result-delete errors are checked with
plain `if` statements that only `console.error`; only the final user-delete
error is thrown, reaching the catch and the failure toast. -/
def deleteUser (ri rr ru : Option String) : DeleteOutcome :=
  let log1 := match ri with
    | some e => [e]
    | none => []
  let log2 := match rr with
    | some e => [e]
    | none => []
  match ru with
  | none =>
    { ops := [DelOp.delInterviews, DelOp.delResults, DelOp.delUser]
      loggedErrors := log1 ++ log2
      success := true }
  | some _ =>
    { ops := [DelOp.delInterviews, DelOp.delResults, DelOp.delUser]
      loggedErrors := log1 ++ log2
      success := false }

/-! ## Helper lemmas: substring search -/

/-- Characterisation of `leadsWith`: the needle is an initial segment. -/
lemma leadsWith_iff : ∀ needle hay : List Char,
    leadsWith needle hay = true ↔ ∃ rest, hay = needle ++ rest := by
  intro needle
  induction needle with
  | nil =>
    intro hay
    simp [leadsWith]
  | cons c cs ih =>
    intro hay
    cases hay with
    | nil =>
      simp [leadsWith]
    | cons d ds =>
      simp only [leadsWith, Bool.and_eq_true, beq_iff_eq, ih ds,
        List.cons_append, List.cons.injEq]
      constructor
      · rintro ⟨hcd, rest, hrest⟩
        exact ⟨rest, hcd.symm, hrest⟩
      · rintro ⟨rest, hdc, hrest⟩
        exact ⟨hdc.symm, rest, hrest⟩

/-- Characterisation of `containsSeq`: the needle occurs contiguously. -/
lemma containsSeq_iff : ∀ hay needle : List Char,
    containsSeq hay needle = true ↔ ∃ p rest, hay = p ++ needle ++ rest := by
  intro hay
  induction hay with
  | nil =>
    intro needle
    cases needle with
    | nil => simp [containsSeq]
    | cons c cs => simp [containsSeq]
  | cons d ds ih =>
    intro needle
    simp only [containsSeq, Bool.or_eq_true, leadsWith_iff, ih]
    constructor
    · rintro (⟨rest, hrest⟩ | ⟨p, rest, hrest⟩)
      · exact ⟨[], rest, by simpa using hrest⟩
      · exact ⟨d :: p, rest, by simp [hrest]⟩
    · rintro ⟨p, rest, hrest⟩
      cases p with
      | nil =>
        exact Or.inl ⟨rest, by simpa using hrest⟩
      | cons e p' =>
        simp only [List.cons_append, List.cons.injEq] at hrest
        exact Or.inr ⟨p', rest, hrest.2⟩

/-- Characterisation of the per-field case-insensitive search test. -/
lemma optIncludesCI_iff (field : Option String) (term : String) :
    optIncludesCI field term = true ↔
      ∃ s, field = some s ∧ ∃ p rest, lowerStr s = p ++ lowerStr term ++ rest := by
  cases field with
  | none => simp [optIncludesCI]
  | some s => simp [optIncludesCI, containsSeq_iff]

/-- Extending the needle on the right only removes occurrences. -/
lemma containsSeq_append (hay n1 n2 : List Char)
    (h : containsSeq hay (n1 ++ n2) = true) : containsSeq hay n1 = true := by
  rw [containsSeq_iff] at h ⊢
  obtain ⟨p, rest, hrest⟩ := h
  exact ⟨p, n2 ++ rest, by simp [hrest]⟩

/-! ## Helper lemmas: the sort comparator -/

/-- `lexLt` is asymmetric. -/
lemma lexLt_asymm : ∀ a b : List Char, lexLt a b = true → lexLt b a = false := by
  intro a
  induction a with
  | nil =>
    intro b h
    cases b with
    | nil => simp [lexLt] at h
    | cons d ds => simp [lexLt]
  | cons c cs ih =>
    intro b h
    cases b with
    | nil => simp [lexLt] at h
    | cons d ds =>
      by_cases h1 : c.toNat < d.toNat
      · have h2 : ¬ d.toNat < c.toNat := by omega
        simp [lexLt, h1, h2]
      · by_cases h2 : d.toNat < c.toNat
        · simp [lexLt, h1, h2] at h
        · simp only [lexLt, if_neg h1, if_neg h2] at h ⊢
          exact ih ds h

/-- `jsGt` is asymmetric. -/
lemma jsGt_asymm (v w : SortVal) (h : jsGt v w = true) : jsGt w v = false := by
  cases v <;> cases w <;> simp [jsGt] at h ⊢
  · omega
  · exact lexLt_asymm _ _ h

/-- `jsLt` is `jsGt` flipped. -/
lemma jsLt_eq_jsGt (v w : SortVal) : jsLt v w = jsGt w v := by
  cases v <;> cases w <;> rfl

/-- The page's comparator relation `jsCompare a b ≤ 0` is total: one of the
two orders always holds, so a comparison sort never gets stuck (and in
particular equal keys are harmless). -/
lemma jsCompare_total (k : SortKey) (d : SortDir) (a b : EUser) :
    jsCompare k d a b ≤ 0 ∨ jsCompare k d b a ≤ 0 := by
  cases d with
  | asc =>
    by_cases h : jsGt (sortVal k a) (sortVal k b) = true
    · right
      simp [jsCompare, jsGt_asymm _ _ h]
    · left
      simp [jsCompare, h]
  | desc =>
    by_cases h : jsLt (sortVal k a) (sortVal k b) = true
    · right
      rw [jsLt_eq_jsGt] at h
      simp [jsCompare, jsLt_eq_jsGt, jsGt_asymm _ _ h]
    · left
      simp [jsCompare, h]

/-! ## Helper lemmas: insertion sort adjacency and membership -/

/-- Inserting into a list whose adjacent pairs satisfy a total relation
keeps all adjacent pairs satisfying it (no transitivity needed). -/
lemma chain'_orderedInsert {α : Type} (r : α → α → Prop) [DecidableRel r]
    (total : ∀ a b, r a b ∨ r b a) (x : α) :
    ∀ l : List α, l.Chain' r → (l.orderedInsert r x).Chain' r := by
  intro l
  induction l with
  | nil =>
    intro _
    simp [List.orderedInsert]
  | cons b l ih =>
    intro hc
    by_cases hxb : r x b
    · simp only [List.orderedInsert, if_pos hxb]
      exact List.chain'_cons.2 ⟨hxb, hc⟩
    · simp only [List.orderedInsert, if_neg hxb]
      refine List.chain'_cons'.2 ⟨?_, ih hc.tail⟩
      intro y hy
      have hbx : r b x := (total x b).resolve_left hxb
      cases l with
      | nil =>
        simp [List.orderedInsert] at hy
        subst hy
        exact hbx
      | cons c l' =>
        by_cases hxc : r x c
        · simp [List.orderedInsert, if_pos hxc] at hy
          subst hy
          exact hbx
        · simp [List.orderedInsert, if_neg hxc] at hy
          subst hy
          exact (List.chain'_cons.1 hc).1

/-- Insertion sort over a total relation leaves every adjacent pair of its
output satisfying the relation. -/
lemma chain'_insertionSort {α : Type} (r : α → α → Prop) [DecidableRel r]
    (total : ∀ a b, r a b ∨ r b a) :
    ∀ l : List α, (l.insertionSort r).Chain' r := by
  intro l
  induction l with
  | nil => simp [List.insertionSort]
  | cons b l ih =>
    simp only [List.insertionSort]
    exact chain'_orderedInsert r total b _ ih

/-- Membership in the filter/sort engine's output: the sort permutes, so a
user is visible exactly when it is in the input and passes the filter. -/
lemma mem_filterAndSortUsers (q : QueryState) (users : List EUser) (u : EUser) :
    u ∈ filterAndSortUsers q users ↔ u ∈ users ∧ userPasses q u = true := by
  unfold filterAndSortUsers
  rw [(List.perm_insertionSort _ _).mem_iff, List.mem_filter]

/-! ## Claim theorems -/

/-- Claim C1: for every list of enriched user views and every sort key and
direction, every adjacent pair (a, b) of the filter/sort engine's output
satisfies the comparator postcondition — the direction-less key comparator
(instants for creation time, natural ordering otherwise) is ≤ 0 under
ascending direction and ≥ 0 under descending direction; the sort is total,
so equal keys cannot make it fail. -/
theorem filterAndSort_adjacent_pairs_respect_comparator
    (q : QueryState) (users : List EUser) :
    (filterAndSortUsers q users).Chain' fun a b =>
      match q.sortOrder with
      | SortDir.asc => keyCompare q.sortBy a b ≤ 0
      | SortDir.desc => 0 ≤ keyCompare q.sortBy a b := by
  obtain ⟨t, k, d, sb⟩ := q
  have hchain :
      (filterAndSortUsers ⟨t, k, d, sb⟩ users).Chain'
        fun a b => jsCompare k d a b ≤ 0 := by
    unfold filterAndSortUsers
    exact chain'_insertionSort _ (jsCompare_total k d) _
  refine hchain.imp ?_
  intro a b hab
  cases d with
  | asc =>
    show keyCompare k a b ≤ 0
    by_cases h : jsGt (sortVal k a) (sortVal k b) = true
    · simp [jsCompare, h] at hab
    · simp only [keyCompare, h, Bool.false_eq_true, if_false]
      split <;> omega
  | desc =>
    show 0 ≤ keyCompare k a b
    by_cases h : jsLt (sortVal k a) (sortVal k b) = true
    · simp [jsCompare, h] at hab
    · simp only [keyCompare, h, Bool.false_eq_true, if_false]
      split <;> omega

/-- Claim C3: a record is in the visible subset iff its name or email
contains the search term case-insensitively (an absent field is
non-matching, not an error) and the include-banned flag is set or the
record is not banned. -/
theorem mem_visible_iff_search_and_ban_filter
    (q : QueryState) (users : List EUser) (u : EUser) :
    u ∈ filterAndSortUsers q users ↔
      u ∈ users ∧
      ((∃ s, u.name = some s ∧
          ∃ p rest, lowerStr s = p ++ lowerStr q.searchTerm ++ rest) ∨
       (∃ s, u.email = some s ∧
          ∃ p rest, lowerStr s = p ++ lowerStr q.searchTerm ++ rest)) ∧
      (q.showBanned = true ∨ u.banned = false) := by
  rw [mem_filterAndSortUsers]
  unfold userPasses matchesSearch
  simp only [Bool.and_eq_true, Bool.or_eq_true, Bool.not_eq_true',
    optIncludesCI_iff]

/-- Claim C9: the filter is monotonic — flipping include-banned from false
to true yields a superset of the visible set, and appending characters to
the search term yields a subset. -/
theorem filter_monotone_banned_and_search :
    (∀ (t : String) (k : SortKey) (d : SortDir) (users : List EUser) (u : EUser),
       u ∈ filterAndSortUsers ⟨t, k, d, false⟩ users →
       u ∈ filterAndSortUsers ⟨t, k, d, true⟩ users) ∧
    (∀ (t ext : String) (k : SortKey) (d : SortDir) (sb : Bool)
       (users : List EUser) (u : EUser),
       u ∈ filterAndSortUsers ⟨t ++ ext, k, d, sb⟩ users →
       u ∈ filterAndSortUsers ⟨t, k, d, sb⟩ users) := by
  constructor
  · intro t k d users u hu
    rw [mem_filterAndSortUsers] at hu ⊢
    refine ⟨hu.1, ?_⟩
    have h := hu.2
    unfold userPasses at h ⊢
    simp only [Bool.and_eq_true, Bool.or_eq_true, Bool.not_eq_true'] at h ⊢
    tauto
  · intro t ext k d sb users u hu
    rw [mem_filterAndSortUsers] at hu ⊢
    refine ⟨hu.1, ?_⟩
    have h := hu.2
    unfold userPasses matchesSearch at h ⊢
    simp only [Bool.and_eq_true, Bool.or_eq_true] at h ⊢
    refine ⟨?_, h.2⟩
    have hlow : lowerStr (t ++ ext) = lowerStr t ++ lowerStr ext := by
      simp [lowerStr]
    rcases h.1 with hname | hemail
    · left
      cases hn : u.name with
      | none => simp [optIncludesCI, hn] at hname
      | some s =>
        simp only [optIncludesCI, hn, hlow] at hname ⊢
        exact containsSeq_append _ _ _ hname
    · right
      cases he : u.email with
      | none => simp [optIncludesCI, he] at hemail
      | some s =>
        simp only [optIncludesCI, he, hlow] at hemail ⊢
        exact containsSeq_append _ _ _ hemail

/-- A user visible to the monotonicity witness below. -/
def uNine : EUser :=
  { id := 9, name := some "ab", email := none, created_at := some 1,
    credits := none, banned := false, interview_id := none,
    interviewCount := 1, candidateCount := 0 }

/-- Witness for claim C9 at a concrete user, query and list. -/
theorem filter_monotone_banned_and_search_witness :
    uNine ∈ filterAndSortUsers ⟨"a", SortKey.name, SortDir.asc, true⟩ [uNine] ∧
    uNine ∈ filterAndSortUsers ⟨"", SortKey.name, SortDir.asc, true⟩ [uNine] :=
  ⟨filter_monotone_banned_and_search.1 "a" SortKey.name SortDir.asc [uNine]
      uNine (by decide),
   filter_monotone_banned_and_search.2 "" "a" SortKey.name SortDir.asc true
      [uNine] uNine (by decide)⟩

/-- Claim C8: the derived status label is computed in the fixed priority
order Banned, then Active (interview count > 0), then Registered (creation
timestamp present), then Inactive. -/
theorem getStatusText_priority_order (u : EUser) :
    (u.banned = true → getStatusText u = "Banned") ∧
    (u.banned = false → 0 < u.interviewCount → getStatusText u = "Active") ∧
    (u.banned = false → u.interviewCount = 0 → u.created_at.isSome = true →
       getStatusText u = "Registered") ∧
    (u.banned = false → u.interviewCount = 0 → u.created_at = none →
       getStatusText u = "Inactive") := by
  refine ⟨?_, ?_, ?_, ?_⟩ <;> intro hb
  · simp [getStatusText, hb]
  · intro hc
    simp [getStatusText, hb, hc]
  · intro hc hca
    simp [getStatusText, hb, hc, hca]
  · intro hc hca
    simp [getStatusText, hb, hc, hca]

/-- A banned user with five interviews, as in the spec's example. -/
def uEight : EUser :=
  { id := 8, name := some "E", email := some "e@x.com", created_at := some 1,
    credits := some 1, banned := true, interview_id := none,
    interviewCount := 5, candidateCount := 0 }

/-- Witness for claim C8: a user with banned = true and interviewCount = 5
reports "Banned". -/
theorem getStatusText_priority_order_witness :
    getStatusText uEight = "Banned" :=
  (getStatusText_priority_order uEight).1 rfl

/-- Claim C6: in the cascading delete, failures of the dependent
interview-delete and result-delete steps are only logged and never abort
the workflow — the root delete is always among the issued operations — and
the action reports success exactly when the root delete succeeds, dependent
failures notwithstanding. -/
theorem deleteUser_best_effort_cascade (ri rr ru : Option String) :
    DelOp.delUser ∈ (deleteUser ri rr ru).ops ∧
    (deleteUser ri rr ru).loggedErrors = ri.toList ++ rr.toList ∧
    ((deleteUser ri rr ru).success = true ↔ ru = none) := by
  cases ri <;> cases rr <;> cases ru <;> simp [deleteUser]

/-- The first user of the spec's export scenario. -/
def uSevenA : EUser :=
  { id := 1, name := some "A", email := some "a@x.com", created_at := some 1,
    credits := some 5, banned := false, interview_id := none,
    interviewCount := 2, candidateCount := 1 }

/-- The second user of the spec's export scenario. -/
def uSevenB : EUser :=
  { id := 2, name := some "B", email := some "b@x.com", created_at := some 2,
    credits := some 0, banned := true, interview_id := none,
    interviewCount := 0, candidateCount := 0 }

/-- Claim C7: for the spec's two visible users the exporter produces the
fixed header row followed by the two comma-joined data rows
`A,a@x.com,<date>,2,1,5,Active` and `B,b@x.com,<date>,0,0,0,Banned`, for
every date formatter, with no escaping applied to any field. -/
theorem exportUsersToCSV_two_user_scenario (fmt : Option Nat → String) :
    exportUsersToCSV fmt [uSevenA, uSevenB] =
      "Name,Email,Created Date,Interviews Created,Candidates Interviewed,Credits,Status\n" ++
      "A,a@x.com," ++ fmt (some 1) ++ ",2,1,5,Active\n" ++
      "B,b@x.com," ++ fmt (some 2) ++ ",0,0,0,Banned" := by
  have hA : csvRow fmt uSevenA =
      ["A", "a@x.com", fmt (some 1), "2", "1", "5", "Active"] := rfl
  have hB : csvRow fmt uSevenB =
      ["B", "b@x.com", fmt (some 2), "0", "0", "0", "Banned"] := rfl
  unfold exportUsersToCSV
  simp only [List.map_cons, List.map_nil, hA, hB]
  apply String.ext
  simp [joinSep, csvHeader]

/-- Claim C10: in an exported row, an absent display name and an absent
email are emitted as the literal string "N/A", and an absent credit balance
is emitted as 0, rather than as empty fields. -/
theorem csvRow_absent_fields_defaults (fmt : Option Nat → String) (u : EUser)
    (hn : u.name = none) (he : u.email = none) (hc : u.credits = none) :
    (csvRow fmt u)[0]? = some "N/A" ∧
    (csvRow fmt u)[1]? = some "N/A" ∧
    (csvRow fmt u)[5]? = some "0" := by
  simp only [csvRow, hn, he, hc, orNA, creditsOrZero]
  refine ⟨rfl, rfl, rfl⟩

/-- A user record with absent name, email and credits. -/
def uTen : EUser :=
  { id := 10, name := none, email := none, created_at := some 3,
    credits := none, banned := false, interview_id := none,
    interviewCount := 0, candidateCount := 0 }

/-- Witness for claim C10 at a concrete record and formatter. -/
theorem csvRow_absent_fields_defaults_witness :
    (csvRow (fun _ => "d") uTen)[0]? = some "N/A" ∧
    (csvRow (fun _ => "d") uTen)[1]? = some "N/A" ∧
    (csvRow (fun _ => "d") uTen)[5]? = some "0" :=
  csvRow_absent_fields_defaults (fun _ => "d") uTen rfl rfl rfl

/-- A candidate whose rating object is the spec's example
`{a: 4, b: 8, c: null}`. -/
def cFour : Candidate :=
  { fullname := some "C", created_at := some 1,
    conversation_transcript := some
      { feedback := some
          { rating := some
              [("a", JsVal.num 4), ("b", JsVal.num 8), ("c", JsVal.null)] } } }

/-- Claim C4: the rating calculator collects exactly the numeric-valued
entries of the rating mapping (non-numeric entries are silently ignored);
with at least one numeric value it outputs the rounded integer mean with
the fixed "/10" suffix (the example rating yields "6/10"), and otherwise —
including a missing structure at any level — the "N/A" sentinel, without
failing. -/
theorem calculateRating_spec :
    (∀ c : Candidate, ratingOf c = none → calculateRating c = "N/A") ∧
    (∀ (c : Candidate) (r : List (String × JsVal)), ratingOf c = some r →
       numericValues r = [] → calculateRating c = "N/A") ∧
    (∀ (c : Candidate) (r : List (String × JsVal)), ratingOf c = some r →
       numericValues r ≠ [] →
       calculateRating c =
         toString (round ((numericValues r).sum /
           ((numericValues r).length : ℚ))) ++ "/10") ∧
    calculateRating cFour = "6/10" := by
  refine ⟨?_, ?_, ?_, ?_⟩
  · intro c h
    simp [calculateRating, ratingAverage, h]
  · intro c r h hv
    simp [calculateRating, ratingAverage, h, hv]
  · intro c r h hv
    have hlen : (numericValues r).length ≠ 0 := by
      simpa [List.length_eq_zero] using hv
    simp [calculateRating, ratingAverage, h, hlen]
  · have hro : ratingOf cFour =
        some [("a", JsVal.num 4), ("b", JsVal.num 8), ("c", JsVal.null)] := rfl
    have hval : numericValues
        [("a", JsVal.num 4), ("b", JsVal.num 8), ("c", JsVal.null)] =
        [4, 8] := rfl
    have havg : ratingAverage cFour = some 6 := by
      simp [ratingAverage, hro, hval]
      norm_num [round_eq]
    simp [calculateRating, havg]
    rfl

/-- A candidate with no conversation transcript at all. -/
def cBare : Candidate :=
  { fullname := none, created_at := none, conversation_transcript := none }

/-- Witness for claim C4: the missing-structure branch at a concrete
candidate. -/
theorem calculateRating_spec_witness : calculateRating cBare = "N/A" :=
  calculateRating_spec.1 cBare rfl

/-- A candidate with the single out-of-range rating entry `{a: 15}`. -/
def cFifteen : Candidate :=
  { fullname := none, created_at := none,
    conversation_transcript := some
      { feedback := some { rating := some [("a", JsVal.num 15)] } } }

/-- Counterexample to claim C5 as stated: this candidate has a numeric
rating entry, yet the calculator's average is 15, outside 0..10 — the code
never clamps the entries. -/
theorem ratingAverage_exceeds_ten_cex :
    numericValues ((ratingOf cFifteen).getD []) ≠ [] ∧
    ratingAverage cFifteen = some 15 ∧
    ¬ (0 ≤ (15 : ℤ) ∧ (15 : ℤ) ≤ 10) := by
  refine ⟨by decide, ?_, by decide⟩
  have hro : ratingOf cFifteen = some [("a", JsVal.num 15)] := rfl
  have hval : numericValues [("a", JsVal.num 15)] = [15] := rfl
  simp [ratingAverage, hro, hval]

/-- Amended claim C5: for every candidate with at least one numeric rating
entry, if every numeric entry lies between 0 and 10, then the calculator's
average lies between 0 and 10 inclusive. -/
theorem ratingAverage_bounded_of_entries_bounded
    (c : Candidate) (r : List (String × JsVal))
    (hro : ratingOf c = some r) (hne : numericValues r ≠ [])
    (hbd : ∀ q ∈ numericValues r, 0 ≤ q ∧ q ≤ 10) :
    ∃ a : ℤ, ratingAverage c = some a ∧ 0 ≤ a ∧ a ≤ 10 := by
  have hlen : (numericValues r).length ≠ 0 := by
    simpa [List.length_eq_zero] using hne
  have hpos : (0 : ℚ) < ((numericValues r).length : ℚ) := by
    exact_mod_cast Nat.pos_of_ne_zero hlen
  have hsum0 : (0 : ℚ) ≤ (numericValues r).sum :=
    List.sum_nonneg fun x hx => (hbd x hx).1
  have hsum10 : (numericValues r).sum ≤ ((numericValues r).length : ℚ) * 10 := by
    have := List.sum_le_card_nsmul (numericValues r) 10 fun x hx => (hbd x hx).2
    simpa [nsmul_eq_mul] using this
  have hmean0 : (0 : ℚ) ≤ (numericValues r).sum / ((numericValues r).length : ℚ) :=
    div_nonneg hsum0 (le_of_lt hpos)
  have hmean10 : (numericValues r).sum / ((numericValues r).length : ℚ) ≤ 10 := by
    rw [div_le_iff₀ hpos]
    linarith
  refine ⟨round ((numericValues r).sum / ((numericValues r).length : ℚ)), ?_, ?_, ?_⟩
  · simp [ratingAverage, hro, hlen]
  · rw [round_eq]
    have h0 : (0 : ℤ) = ⌊(1 / 2 : ℚ)⌋ := by norm_num
    rw [h0]
    exact Int.floor_mono (by linarith)
  · rw [round_eq]
    have h21 : (⌊(21 / 2 : ℚ)⌋ : ℤ) = 10 := by norm_num
    calc ⌊(numericValues r).sum / ((numericValues r).length : ℚ) + 1 / 2⌋
        ≤ ⌊(21 / 2 : ℚ)⌋ := Int.floor_mono (by linarith)
      _ = 10 := h21

/-- A candidate with the single in-range rating entry `{a: 4}`. -/
def cInRange : Candidate :=
  { fullname := none, created_at := none,
    conversation_transcript := some
      { feedback := some { rating := some [("a", JsVal.num 4)] } } }

/-- Witness for the amended claim C5 at a concrete candidate. -/
theorem ratingAverage_bounded_of_entries_bounded_witness :
    ∃ a : ℤ, ratingAverage cInRange = some a ∧ 0 ≤ a ∧ a ≤ 10 :=
  ratingAverage_bounded_of_entries_bounded cInRange [("a", JsVal.num 4)] rfl
    (by decide) (by decide)

/-- A backend user row for the aggregation counterexample. -/
def rowTwo : UserRow :=
  { id := 1, name := some "X", email := some "x@x.com", created_at := some 1,
    credits := none, banned := false, interview_id := none }

/-- The previously rendered enriched view before the aggregation pass. -/
def prevTwo : List EUser :=
  [{ toUserRow := rowTwo, interviewCount := 7, candidateCount := 7 }]

/-- An interview-count lookup that fails: no count, an error reported. -/
def icFailTwo : UserRow → CountResp :=
  fun _ => { count := none, error := some "boom" }

/-- A candidate-count lookup that succeeds with count 3. -/
def ccOkTwo : UserRow → CountResp :=
  fun _ => { count := some 3, error := none }

/-- Counterexample to claim C2 as stated: with one per-user count lookup
failing, the aggregation still succeeds — no error is surfaced, the
previous view is replaced, and a partial result (failed count defaulted to
0 next to the successful count 3) is attached. -/
theorem fetchUsers_count_failure_not_propagated_cex :
    (fetchUsers prevTwo (Except.ok [rowTwo]) icFailTwo ccOkTwo).errorToast = false ∧
    (fetchUsers prevTwo (Except.ok [rowTwo]) icFailTwo ccOkTwo).users ≠ prevTwo ∧
    (fetchUsers prevTwo (Except.ok [rowTwo]) icFailTwo ccOkTwo).users =
      [{ toUserRow := rowTwo, interviewCount := 0, candidateCount := 3 }] := by
  refine ⟨rfl, by decide, rfl⟩

/-- Amended claim C2: only a failure of the initial user-list query fails
the whole aggregation — surfacing a single user-visible error and leaving
the previous view unchanged. A failed per-user count lookup does not fail
the aggregation: its error field is never read, its count defaults to 0,
and the resulting enriched views replace the previous view with no error
surfaced. -/
theorem fetchUsers_list_failure_aborts_count_failure_ignored :
    (∀ (prev : List EUser) (e : String) (ic cc : UserRow → CountResp),
       fetchUsers prev (Except.error e) ic cc =
         { users := prev, errorToast := true }) ∧
    (∀ (prev : List EUser) (rows : List UserRow) (ic cc : UserRow → CountResp),
       (fetchUsers prev (Except.ok rows) ic cc).errorToast = false ∧
       (fetchUsers prev (Except.ok rows) ic cc).users =
         rows.map (enrichUser ic cc)) :=
  ⟨fun _ _ _ _ => rfl, fun _ _ _ _ => ⟨rfl, rfl⟩⟩
